import Mathlib

/-!
Verification of the SteganoGAN training/inference orchestration
(`src/models.py`, `src/train.py`) against its natural-language design
specification.  The Python source is shallowly embedded: tensors of bits or
pixels become lists, floating-point scalars become rationals (reals where a
logarithm is involved), and the stateful training loop becomes explicit
state passing.  Helper functions of the repository that live in the missing
`utils.py` module (`text_to_bits`, `bits_to_bytearray`, `bytearray_to_text`)
are modelled from the specification, as noted in their doc comments.
-/

namespace SteganoGAN

/-- Text is modelled as its list of Unicode code points. -/
abbrev Text := List Nat

/-! ## Bit/byte packing (PayloadCodec) -/

/-- Modelled from the spec: `text_to_bits` is a "deterministic, reversible
encoding of UTF-8 bytes to bits" (missing `utils.py`).  One byte becomes its
eight bits, most significant first. -/
def byteToBits (c : Nat) : List Bool :=
  [decide (c / 128 % 2 = 1), decide (c / 64 % 2 = 1), decide (c / 32 % 2 = 1),
   decide (c / 16 % 2 = 1), decide (c / 8 % 2 = 1), decide (c / 4 % 2 = 1),
   decide (c / 2 % 2 = 1), decide (c % 2 = 1)]

/-- Modelled from the spec: UTF-8 encoding of a code point (missing
`utils.py` uses the UTF-8 byte encoding of the text). -/
def utf8EncodeChar (c : Nat) : List Nat :=
  if c < 128 then [c]
  else if c < 2048 then [192 + c / 64, 128 + c % 64]
  else if c < 65536 then [224 + c / 4096, 128 + c / 64 % 64, 128 + c % 64]
  else [240 + c / 262144, 128 + c / 4096 % 64, 128 + c / 64 % 64, 128 + c % 64]

/-- Modelled from the spec: the UTF-8 byte sequence of a text. -/
def utf8Encode (text : Text) : List Nat :=
  (text.map utf8EncodeChar).flatten

/-- Modelled from the spec: `text_to_bits(text)` — UTF-8 bytes flattened to a
bit sequence (missing `utils.py`). -/
def textToBits (text : Text) : List Bool :=
  ((utf8Encode text).map byteToBits).flatten

/-- Value of one group of eight bits, most significant first. -/
def bitsToByte (bits : List Bool) : Nat :=
  bits.foldl (fun acc b => 2 * acc + (if b then 1 else 0)) 0

/-- Modelled from the spec: `bits_to_bytearray` — "split the flattened bit
stream into byte groups" (missing `utils.py`); a trailing group of fewer than
eight bits is dropped. -/
def bitsToBytes : List Bool → List Nat
  | b0 :: b1 :: b2 :: b3 :: b4 :: b5 :: b6 :: b7 :: rest =>
      bitsToByte [b0, b1, b2, b3, b4, b5, b6, b7] :: bitsToBytes rest
  | _ => []

/-! ## Strict UTF-8 decoding

Modelled from the spec: `bytearray_to_text` decodes "each candidate fragment
as UTF-8 (invalid fragments are skipped, not fatal)" (missing `utils.py`).
The decoder is a left fold over the bytes carrying the number of pending
continuation bytes, the partial code point, the overlong-encoding threshold,
the code points produced so far (reversed) and a validity flag; it rejects
stray or missing continuation bytes, overlong encodings, surrogate code
points and code points beyond U+10FFFF, as Python's `bytes.decode("utf-8")`
does. -/

structure Utf8State where
  pending : Nat
  acc : Nat
  minCp : Nat
  out : List Nat
  ok : Bool
  deriving Repr, DecidableEq

def utf8Step (s : Utf8State) (b : Nat) : Utf8State :=
  if !s.ok then s
  else if s.pending = 0 then
    if b < 128 then { s with out := b :: s.out }
    else if b < 192 then { s with ok := false }
    else if b < 224 then { s with pending := 1, acc := b - 192, minCp := 128 }
    else if b < 240 then { s with pending := 2, acc := b - 224, minCp := 2048 }
    else if b < 248 then { s with pending := 3, acc := b - 240, minCp := 65536 }
    else { s with ok := false }
  else if 128 ≤ b ∧ b < 192 then
    let acc := s.acc * 64 + (b - 128)
    if s.pending = 1 then
      if acc < s.minCp ∨ (55296 ≤ acc ∧ acc < 57344) ∨ 1114112 ≤ acc then
        { s with ok := false }
      else { s with pending := 0, acc := 0, out := acc :: s.out }
    else { s with pending := s.pending - 1, acc := acc }
  else { s with ok := false }

/-- Modelled from the spec: decode a byte fragment as UTF-8, `none` when the
bytes are not valid UTF-8. -/
def utf8Decode (bytes : List Nat) : Option Text :=
  let s := bytes.foldl utf8Step ⟨0, 0, 0, [], true⟩
  if s.ok ∧ s.pending = 0 then some s.out.reverse else none

/-! ## Splitting on the terminator and majority vote (`SteganoGAN.decode`) -/

/-- Python's `bytes.split(b'\x00\x00\x00\x00')` (models.py line 412): split
the byte list at every non-overlapping occurrence of four zero bytes,
scanning left to right. -/
def splitOnTerm : List Nat → List (List Nat)
  | 0 :: 0 :: 0 :: 0 :: rest => [] :: splitOnTerm rest
  | b :: rest =>
      match splitOnTerm rest with
      | f :: fs => (b :: f) :: fs
      | [] => [[b]]
  | [] => [[]]

/-- The candidate messages of a recovered bit stream, in encounter order
(models.py lines 410–415): split the packed bytes on the terminator, decode
each fragment, and keep the decodable, non-empty ones. -/
def decodeCandidates (bits : List Bool) : List Text :=
  (((splitOnTerm (bitsToBytes bits)).filterMap utf8Decode).filter
    (fun t => !t.isEmpty))

/-- One update of an insertion-ordered frequency table, as Python's
`Counter` behaves (models.py line 415). -/
def tallyStep {α : Type} [DecidableEq α] (acc : List (α × Nat)) (t : α) :
    List (α × Nat) :=
  if acc.any (fun p => p.1 = t) then
    acc.map (fun p => if p.1 = t then (p.1, p.2 + 1) else p)
  else acc ++ [(t, 1)]

/-- Insertion-ordered frequency table of a list (Python `Counter`). -/
def tally {α : Type} [DecidableEq α] (items : List α) : List (α × Nat) :=
  items.foldl tallyStep []

/-- One comparison step of `Counter.most_common(1)`: a later entry replaces
the running best only when its count is strictly larger, so ties keep the
earlier entry. -/
def mcStep {α : Type} (best q : α × Nat) : α × Nat :=
  if best.2 < q.2 then q else best

/-- `Counter.most_common(1)` (models.py line 421): the first entry of the
table achieving the maximal count, `none` on an empty table. -/
def mostCommon {α : Type} : List (α × Nat) → Option (α × Nat)
  | [] => none
  | p :: ps => some (ps.foldl mcStep p)

/-- The pure part of `SteganoGAN.decode` on a recovered bit stream
(models.py lines 409–422): tally the candidates and return the most common
one; `none` models the "Failed to find message" error. -/
def decodeBits (bits : List Bool) : Option Text :=
  (mostCommon (tally (decodeCandidates bits))).map Prod.fst

/-- `p` occurs in `l` with every earlier entry of strictly smaller count and
every later entry of count at most `p`'s: `p` is the first-encountered entry
of maximal count. -/
def IsFirstMax {α : Type} (l : List (α × Nat)) (p : α × Nat) : Prop :=
  ∃ l1 l2, l = l1 ++ p :: l2 ∧ (∀ q ∈ l1, q.2 < p.2) ∧ (∀ q ∈ l2, q.2 ≤ p.2)

/-- A bit stream whose terminator-delimited fragments decode to the texts
"A", "A" and "B": the bytes `65 ‖ 0000 ‖ 65 ‖ 0000 ‖ 66`, flattened to bits. -/
def exampleAAB : List Bool :=
  (([65, 0, 0, 0, 0, 65, 0, 0, 0, 0, 66].map byteToBits)).flatten

/-! ## Payload tiling (`SteganoGAN._make_payload`, models.py lines 358–371) -/

/-- The `while len(payload) < width * height * depth: payload += message`
loop of `_make_payload` (models.py lines 366–367). -/
def tileLoop (message : List Bool) (hm : 0 < message.length) (target : Nat)
    (payload : List Bool) : List Bool :=
  if payload.length < target then tileLoop message hm target (payload ++ message)
  else payload
termination_by target - payload.length
decreasing_by simp only [List.length_append]; omega

/-- `SteganoGAN._make_payload` (models.py lines 358–371): append a 32-zero-bit
terminator to the text's bits, tile until the length reaches
`width * height * depth`, truncate to exactly that length.  The
`view(1, depth, height, width)` reshape is represented by the flat list of
the tensor's entries. -/
def payloadMessage (text : Text) : List Bool :=
  textToBits text ++ List.replicate 32 false

def payloadMessage_pos (text : Text) : 0 < (payloadMessage text).length := by
  simp only [payloadMessage, List.length_append, List.length_replicate]
  omega

def makePayload (width height depth : Nat) (text : Text) : List Bool :=
  (tileLoop (payloadMessage text) (payloadMessage_pos text)
      (width * height * depth) (payloadMessage text)).take
    (width * height * depth)

/-! ## Critic phase (`SteganoGAN._fit_critic`, models.py lines 195–213) -/

/-- The scalar on which `backward` is invoked in the critic phase
(models.py line 206): `(cover_score - generated_score).backward()`. -/
def criticBackwardScalar (cover_score generated_score : ℚ) : ℚ :=
  cover_score - generated_score

/-- Critic loss of a one-parameter linear critic whose batch-mean scores are
`θ * c` on the cover and `θ * g` on the generated image: the scalar of
models.py line 206 as a function of the parameter. -/
def criticLossAt (θ c g : ℚ) : ℚ :=
  criticBackwardScalar (θ * c) (θ * g)

/-- One optimizer step on the one-parameter linear critic: a descent step of
rate `lr` along the gradient `c - g` of `criticLossAt · c g`, modelling
`critic_optimizer.step()` after the backward call of models.py line 206. -/
def criticDescentStep (θ lr c g : ℚ) : ℚ :=
  θ - lr * (c - g)

/-- `p.data.clamp_(-0.1, 0.1)` on one critic parameter (models.py line 210). -/
def clampParam (x : ℚ) : ℚ :=
  max (-(1 / 10)) (min (1 / 10) x)

/-- The parameter-clipping loop of models.py lines 209–210 over the critic's
parameter vector. -/
def clampCritic (ps : List ℚ) : List ℚ :=
  ps.map clampParam

/-- One iteration of the critic phase on one batch, with the optimizer update
abstracted as an arbitrary function of the parameters: `zero_grad`,
`backward`, `step`, then clamp every parameter (models.py lines 205–210). -/
def criticIter (update : List ℚ → List ℚ) (ps : List ℚ) : List ℚ :=
  clampCritic (update ps)

/-- `SteganoGAN._fit_critic` over a list of training batches (models.py
lines 195–213): fold the per-batch iteration, where `update b` abstracts the
optimizer step produced by batch `b`. -/
def fitCritic (update : Nat → List ℚ → List ℚ) (batches : List Nat)
    (ps : List ℚ) : List ℚ :=
  batches.foldl (fun acc b => criticIter (update b) acc) ps

/-! ## Coder phase loss (`SteganoGAN._fit_coders`, models.py lines 235–242) -/

/-- The total loss backpropagated in the coder phase (models.py lines
237–239): `100.0 * encoder_mse + (decoder_loss_g + decoder_loss_t) / 2 +
generated_score`, with `perceptual_loss` added when the configuration flag
`self.perceptual_loss` is set. -/
def coderTotalLoss (perceptualFlag : Bool)
    (encoder_mse decoder_loss_g decoder_loss_t generated_score
      perceptual_loss : ℚ) : ℚ :=
  let base := 100 * encoder_mse + (decoder_loss_g + decoder_loss_t) / 2 +
    generated_score
  if perceptualFlag then base + perceptual_loss else base

/-! ## Scores and validation metrics (`_coding_scores`, `_validate`) -/

/-- `decoder_acc` of `SteganoGAN._coding_scores` (models.py line 254):
`(decoded >= 0.0).eq(payload >= 0.5).sum().float() / payload.numel()`,
on the flattened entries of the two equally-shaped tensors. -/
def decoderAcc (decoded payload : List ℚ) : ℚ :=
  (((decoded.zip payload).countP
      (fun q => decide (0 ≤ q.1) = decide (1 / 2 ≤ q.2)) : ℚ)) /
    (payload.length : ℚ)

/-- The bits-per-pixel metric recorded for a validation batch (models.py
lines 289–290): `data_depth * (2 * decoder_acc - 1)`. -/
def bppMetric (data_depth : Nat) (acc : ℚ) : ℚ :=
  (data_depth : ℚ) * (2 * acc - 1)

/-- The PSNR metric recorded for a validation batch (models.py line 288):
`10 * torch.log10(4 / encoder_mse)`. -/
noncomputable def valPsnr (encoder_mse : ℝ) : ℝ :=
  10 * Real.logb 10 (4 / encoder_mse)

/-! ## Quantization (`SteganoGAN._encode_decode`, models.py lines 153–155) -/

/-- PyTorch's `.long()` cast on a float value: truncation toward zero. -/
def pyLong (x : ℚ) : ℤ :=
  if 0 ≤ x then ⌊x⌋ else ⌈x⌉

/-- The per-pixel quantization of models.py lines 154–155:
`generated = (255.0 * (generated + 1.0) / 2.0).long()` followed by
`generated = 2.0 * generated.float() / 255.0 - 1.0`. -/
def quantizePixel (x : ℚ) : ℚ :=
  2 * ((pyLong (255 * (x + 1) / 2) : ℚ)) / 255 - 1

/-- The `quantize` branch of `_encode_decode` (models.py lines 153–155) on
the flattened generated image. -/
def encodeDecodeGenerated (quantize : Bool) (generated : List ℚ) : List ℚ :=
  if quantize then generated.map quantizePixel else generated

/-- The generated image as seen by the recoverer and the metrics in the
validation phase: `_validate` calls `_encode_decode` with `quantize=True`
(models.py lines 263–264). -/
def validateGenerated (generated : List ℚ) : List ℚ :=
  encodeDecodeGenerated true generated

/-- The generated image as seen in the training coder phase: `_fit_coders`
calls `_encode_decode` without `quantize` (models.py lines 224–225), whose
default is `False` (models.py line 138). -/
def coderGenerated (generated : List ℚ) : List ℚ :=
  encodeDecodeGenerated false generated

/-! ## Epoch finalization and the metrics log (`SteganoGAN.fit`) -/

/-- The 20 metric keys of models.py lines 26–47, in source order. -/
def METRIC_FIELDS : List String :=
  ["val.encoder_mse", "val.decoder_loss_g", "val.decoder_loss_t",
   "val.decoder_acc_g", "val.decoder_acc_t", "val.cover_score",
   "val.generated_score", "val.ssim", "val.psnr", "val.bpp_g", "val.bpp_t",
   "val.perceptual_loss", "train.encoder_mse", "train.decoder_loss_t",
   "train.decoder_loss_g", "train.perceptual_loss", "train.decoder_acc_t",
   "train.decoder_acc_g", "train.cover_score", "train.generated_score"]

/-- Mean of a list of per-batch values (`sum(v) / len(v)`, models.py
line 336). -/
def listMean (xs : List ℚ) : ℚ :=
  xs.sum / (xs.length : ℚ)

/-- `self.fit_metrics` of one epoch (models.py lines 336–337): the mean of
every metric list, keyed in `METRIC_FIELDS` order, followed by the epoch
index.  A record is an ordered key/value list, as a Python dict is
insertion-ordered. -/
def epochRecord (metrics : String → List ℚ) (epoch : Nat) :
    List (String × ℚ) :=
  METRIC_FIELDS.map (fun k => (k, listMean (metrics k))) ++
    [("epoch", (epoch : ℚ))]

/-- The logging state of a training run: the in-memory `self.history` and
the contents of the metrics log file (`none` when never written). -/
structure TrainLog where
  history : List (List (String × ℚ))
  metricsFile : Option (List (List (String × ℚ)))
  deriving DecidableEq

/-- Epoch finalization (models.py lines 336–344): build the epoch record;
when logging is enabled, append it to the history and rewrite the metrics
file in full — the file is opened with mode `'w'` and receives
`json.dump(self.history)`, so its new contents are exactly the updated
history, independent of what it held before. -/
def epochFinalize (logDir : Bool) (st : TrainLog)
    (metrics : String → List ℚ) (epoch : Nat) : TrainLog :=
  let fm := epochRecord metrics epoch
  if logDir then
    { history := st.history ++ [fm], metricsFile := some (st.history ++ [fm]) }
  else st

/-- The epoch loop of `SteganoGAN.fit` (models.py lines 322–344), restricted
to metric reduction and logging: epochs run in order `1, …, n`, and
`metricsOf e` gives the per-batch metric lists accumulated in epoch `e`. -/
def runEpochs (logDir : Bool) (metricsOf : Nat → String → List ℚ) :
    Nat → TrainLog → TrainLog
  | 0, st => st
  | n + 1, st =>
      epochFinalize logDir (runEpochs logDir metricsOf n st)
        (metricsOf (n + 1)) (n + 1)

/-! ## The decode facade (`SteganoGAN.decode`, models.py lines 397–422) -/

/-- The two failures of `SteganoGAN.decode`: `ValueError('Unable to read
…')` for a missing path (the spec's `InputError`, models.py lines 399–400)
and `ValueError('Failed to find message.')` (the spec's `DecodeError`,
models.py lines 418–419). -/
inductive StegError where
  | inputError
  | decodeError
  deriving DecidableEq, Repr

/-- The recovered bit stream of `SteganoGAN.decode` (models.py lines
403–411): normalize the image bytes to `[0,1]` by dividing by 255, run the
recoverer (abstracted as `recover`), and threshold the logits at 0
(`> 0`). -/
def recoveredBits (recover : List ℚ → List ℚ) (img : List Nat) : List Bool :=
  (recover (img.map (fun v => (v : ℚ) / 255))).map (fun x => decide (0 < x))

/-- `SteganoGAN.decode` (models.py lines 397–422): `image? = none` models a
path that does not exist. -/
def steganoDecode (recover : List ℚ → List ℚ) (image? : Option (List Nat)) :
    Except StegError Text :=
  match image? with
  | none => .error .inputError
  | some img =>
      match decodeBits (recoveredBits recover img) with
      | some t => .ok t
      | none => .error .decodeError

/-! ## Helper lemmas -/

theorem tileLoop_length_ge (m : List Bool) (hm : 0 < m.length) (target : Nat)
    (p : List Bool) : target ≤ (tileLoop m hm target p).length := by
  rw [tileLoop]
  split
  · exact tileLoop_length_ge m hm target (p ++ m)
  · omega
termination_by target - p.length
decreasing_by simp only [List.length_append]; omega

theorem clampParam_bounds (x : ℚ) :
    -(1 / 10) ≤ clampParam x ∧ clampParam x ≤ 1 / 10 := by
  unfold clampParam
  refine ⟨le_max_left _ _, max_le (by norm_num) (min_le_left _ _)⟩

theorem criticIter_bounds (update : List ℚ → List ℚ) (ps : List ℚ) :
    ∀ q ∈ criticIter update ps, -(1 / 10) ≤ q ∧ q ≤ 1 / 10 := by
  intro q hq
  rcases List.mem_map.1 hq with ⟨x, _, rfl⟩
  exact clampParam_bounds x

theorem fitCritic_bounds_aux (update : Nat → List ℚ → List ℚ)
    (bs : List Nat) :
    ∀ acc : List ℚ, (∀ q ∈ acc, -(1 / 10) ≤ q ∧ q ≤ 1 / 10) →
      ∀ q ∈ fitCritic update bs acc, -(1 / 10) ≤ q ∧ q ≤ 1 / 10 := by
  induction bs with
  | nil => intro acc hacc; simpa [fitCritic] using hacc
  | cons b bs ih =>
      intro acc hacc q hq
      exact ih (criticIter (update b) acc) (criticIter_bounds (update b) acc)
        q (by simpa [fitCritic] using hq)

/-! ## Claim theorems C4, C5, C6 -/

/-- Claim C4: for every text and positive `width`, `height`, `depth`,
`_make_payload` appends a 32-zero-bit terminator to the text's bits, tiles
the message until its length is at least `width·height·depth`, truncates to
exactly that length, and the resulting `(1, depth, height, width)` tensor
therefore has exactly `width·height·depth` entries, regardless of the
text's length. -/
theorem makePayload_length (width height depth : Nat) (text : Text)
    (hw : 0 < width) (hh : 0 < height) (hd : 0 < depth) :
    (makePayload width height depth text).length = width * height * depth := by
  unfold makePayload
  rw [List.length_take]
  have h := tileLoop_length_ge (payloadMessage text) (payloadMessage_pos text)
    (width * height * depth) (payloadMessage text)
  omega

/-- Witness for C4: a concrete instantiation with text "hi" on a 2×3 image
of depth 1. -/
theorem makePayload_length_witness :
    0 < 2 ∧ 0 < 3 ∧ 0 < 1 ∧
      (makePayload 2 3 1 [104, 105]).length = 2 * 3 * 1 :=
  ⟨by decide, by decide, by decide,
    makePayload_length 2 3 1 [104, 105] (by decide) (by decide) (by decide)⟩

/-- Claim C5: after every critic optimizer step of every training batch the
parameters are clamped, so at the end of every iteration of the critic
phase — i.e. after processing any positive number of batches — every critic
parameter lies within `[-0.1, 0.1]`. -/
theorem critic_params_clipped (update : Nat → List ℚ → List ℚ)
    (batches : List Nat) (ps : List ℚ) (k : Nat) (hk : 0 < k)
    (hkb : k ≤ batches.length) :
    ∀ q ∈ fitCritic update (batches.take k) ps,
      -(1 / 10) ≤ q ∧ q ≤ 1 / 10 := by
  cases batches with
  | nil => simp at hkb; omega
  | cons b bs =>
      cases k with
      | zero => omega
      | succ k =>
          intro q hq
          simp only [List.take_succ_cons] at hq
          exact fitCritic_bounds_aux update (bs.take k)
            (criticIter (update b) ps) (criticIter_bounds (update b) ps)
            q (by simpa [fitCritic] using hq)

/-- Witness for C5: one batch, a parameter vector that starts far outside
the clip range, and an optimizer update that moves it further. -/
theorem critic_params_clipped_witness :
    0 < 1 ∧ 1 ≤ [0].length ∧
      ∀ q ∈ fitCritic (fun _ l => l.map (· + 1)) ([0].take 1) [5, -3],
        -(1 / 10) ≤ q ∧ q ≤ 1 / 10 :=
  ⟨by decide, by decide,
    critic_params_clipped (fun _ l => l.map (· + 1)) [0] [5, -3] 1
      (by decide) (by decide)⟩

/-- Claim C6: the total loss backpropagated in the coder phase equals
`100 · encoder_mse + (decoder_loss_g + decoder_loss_t) / 2 +
critic_score(generated)`, with the perceptual loss added exactly when the
perceptual-loss configuration flag is enabled. -/
theorem coderTotalLoss_eq (perceptualFlag : Bool)
    (encoder_mse decoder_loss_g decoder_loss_t generated_score
      perceptual_loss : ℚ) :
    coderTotalLoss perceptualFlag encoder_mse decoder_loss_g decoder_loss_t
        generated_score perceptual_loss =
      100 * encoder_mse + (decoder_loss_g + decoder_loss_t) / 2 +
        generated_score +
        (if perceptualFlag then perceptual_loss else 0) := by
  cases perceptualFlag <;> simp [coderTotalLoss]

/-! ## Claim C1 (corrected), C7, C8, C10 -/

/-- Counterexample to claim C1: the scalar on which gradients are taken in
the critic phase is `cover_score - generated_score` (models.py line 206),
not `generated_score - cover_score` as claimed — at
`cover_score = 1, generated_score = 0` the code's backward scalar is `1`
while the claim requires `-1`; moreover, on the one-parameter linear critic
with `θ = 0`, `lr = 1`, cover mean `1` and generated mean `0`, the descent
step strictly *decreases* `critic_score(cover) - critic_score(generated)`
(from `0` to `-1`) instead of maximizing it. -/
theorem critic_objective_counterexample :
    ¬ (criticBackwardScalar 1 0 = 0 - 1) ∧
    criticLossAt (criticDescentStep 0 1 1 0) 1 0 < criticLossAt 0 1 0 := by
  constructor
  · norm_num [criticBackwardScalar]
  · norm_num [criticLossAt, criticDescentStep, criticBackwardScalar]

/-- Claim C1 as amended: the scalar on which gradients are taken and
minimized in the critic phase equals
`critic_score(cover) - critic_score(generated)`, so the descent step
*minimizes* `critic_score(cover) - critic_score(generated)` — equivalently,
maximizes `critic_score(generated) - critic_score(cover)`: on the
one-parameter linear critic, a descent step of any positive rate never
increases the backward scalar, and strictly decreases it whenever the two
scores differ. -/
theorem critic_descent_amended :
    (∀ cover_score generated_score : ℚ,
      criticBackwardScalar cover_score generated_score =
        cover_score - generated_score) ∧
    ∀ θ lr c g : ℚ, 0 < lr →
      criticLossAt (criticDescentStep θ lr c g) c g ≤ criticLossAt θ c g ∧
      (c ≠ g →
        criticLossAt (criticDescentStep θ lr c g) c g < criticLossAt θ c g) := by
  refine ⟨fun c g => rfl, ?_⟩
  intro θ lr c g hlr
  have key : criticLossAt (criticDescentStep θ lr c g) c g =
      criticLossAt θ c g - lr * (c - g) ^ 2 := by
    unfold criticLossAt criticDescentStep criticBackwardScalar
    ring
  constructor
  · rw [key]
    nlinarith [sq_nonneg (c - g)]
  · intro hne
    rw [key]
    have h0 : c - g ≠ 0 := sub_ne_zero.2 hne
    have h2 : 0 < (c - g) ^ 2 :=
      lt_of_le_of_ne (sq_nonneg _) (Ne.symm (pow_ne_zero 2 h0))
    nlinarith

/-- Witness for the amended C1 at `θ = 0`, `lr = 1`, cover mean `1`,
generated mean `0`. -/
theorem critic_descent_amended_witness :
    (0 : ℚ) < 1 ∧
      criticLossAt (criticDescentStep 0 1 1 0) 1 0 ≤ criticLossAt 0 1 0 :=
  ⟨by norm_num, (critic_descent_amended.2 0 1 1 0 (by norm_num)).1⟩

/-- Claim C7: for every batch with a non-empty payload, `decoder_acc` lies
in `[0, 1]`, and the bits-per-pixel metric recorded for a validation batch
equals `data_depth · (2·accuracy − 1)`, hence lies between `-data_depth`
and `data_depth`. -/
theorem decoderAcc_bpp_bounds (decoded payload : List ℚ) (data_depth : Nat)
    (hlen : decoded.length = payload.length) (hne : payload ≠ []) :
    (0 ≤ decoderAcc decoded payload ∧ decoderAcc decoded payload ≤ 1) ∧
    bppMetric data_depth (decoderAcc decoded payload) =
      (data_depth : ℚ) * (2 * decoderAcc decoded payload - 1) ∧
    -(data_depth : ℚ) ≤ bppMetric data_depth (decoderAcc decoded payload) ∧
    bppMetric data_depth (decoderAcc decoded payload) ≤ (data_depth : ℚ) := by
  have hn : 0 < payload.length := List.length_pos.2 hne
  have hcount : (decoded.zip payload).countP
      (fun q => decide (0 ≤ q.1) = decide (1 / 2 ≤ q.2)) ≤ payload.length := by
    calc (decoded.zip payload).countP _ ≤ (decoded.zip payload).length :=
          List.countP_le_length _
      _ ≤ payload.length := by rw [List.length_zip, hlen]; omega
  have hacc0 : 0 ≤ decoderAcc decoded payload := by
    unfold decoderAcc
    positivity
  have hacc1 : decoderAcc decoded payload ≤ 1 := by
    unfold decoderAcc
    rw [div_le_one (by exact_mod_cast hn)]
    exact_mod_cast hcount
  have hd : (0 : ℚ) ≤ (data_depth : ℚ) := Nat.cast_nonneg _
  refine ⟨⟨hacc0, hacc1⟩, rfl, ?_, ?_⟩
  · unfold bppMetric
    nlinarith
  · unfold bppMetric
    nlinarith

/-- Witness for C7: a two-bit batch where one bit is recovered correctly,
with `data_depth = 1`. -/
theorem decoderAcc_bpp_bounds_witness :
    ([(1 : ℚ), -1].length = [(1 : ℚ), 0].length) ∧ ([(1 : ℚ), 0] ≠ []) ∧
      ((0 ≤ decoderAcc [(1 : ℚ), -1] [(1 : ℚ), 0] ∧
          decoderAcc [(1 : ℚ), -1] [(1 : ℚ), 0] ≤ 1) ∧
        bppMetric 1 (decoderAcc [(1 : ℚ), -1] [(1 : ℚ), 0]) =
          (1 : ℚ) * (2 * decoderAcc [(1 : ℚ), -1] [(1 : ℚ), 0] - 1) ∧
        -(1 : ℚ) ≤ bppMetric 1 (decoderAcc [(1 : ℚ), -1] [(1 : ℚ), 0]) ∧
        bppMetric 1 (decoderAcc [(1 : ℚ), -1] [(1 : ℚ), 0]) ≤ (1 : ℚ)) :=
  ⟨by decide, by decide,
    by simpa using
      (decoderAcc_bpp_bounds [(1 : ℚ), -1] [(1 : ℚ), 0] 1 (by decide)
        (by decide))⟩

/-- Claim C8: the PSNR recorded for every validation batch is
`10 · log10(4 / encoder_mse)`; in particular, at `encoder_mse = 1` it equals
`10 · log10 4`. -/
theorem valPsnr_formula :
    valPsnr 1 = 10 * Real.logb 10 4 ∧
    ∀ encoder_mse : ℝ, valPsnr encoder_mse =
      10 * Real.logb 10 (4 / encoder_mse) := by
  constructor
  · unfold valPsnr
    norm_num
  · intro m
    rfl

/-- Claim C10: the validation phase passes the generated image through the
8-bit quantization `x ↦ 2·⌊255·(x+1)/2⌋/255 − 1` before the recoverer and
the metric computations (`quantize=True`), while the training coder phase
leaves it untouched; on the `[-1, 1]` range of generated images the
truncation performed by `.long()` agrees with the floor, and the quantized
level `⌊255·(x+1)/2⌋` is one of the 256 integers `0, …, 255`. -/
theorem validation_quantization (generated : List ℚ) :
    validateGenerated generated = generated.map quantizePixel ∧
    coderGenerated generated = generated ∧
    ∀ x : ℚ, -1 ≤ x → x ≤ 1 →
      quantizePixel x = 2 * ((⌊255 * (x + 1) / 2⌋ : ℤ) : ℚ) / 255 - 1 ∧
      0 ≤ ⌊255 * (x + 1) / 2⌋ ∧ ⌊255 * (x + 1) / 2⌋ ≤ 255 := by
  refine ⟨rfl, rfl, ?_⟩
  intro x h1 h2
  have hx : (0 : ℚ) ≤ 255 * (x + 1) / 2 := by linarith
  have hfl : pyLong (255 * (x + 1) / 2) = ⌊255 * (x + 1) / 2⌋ := if_pos hx
  refine ⟨by unfold quantizePixel; rw [hfl], Int.floor_nonneg.2 hx, ?_⟩
  have hub : (255 : ℚ) * (x + 1) / 2 ≤ 255 := by linarith
  calc ⌊255 * (x + 1) / 2⌋ ≤ ⌊(255 : ℚ)⌋ := Int.floor_le_floor hub
    _ = 255 := by norm_num

/-- Witness for C10 at the pixel value `x = 0` of a one-pixel image. -/
theorem validation_quantization_witness :
    validateGenerated [0] = [(0 : ℚ)].map quantizePixel ∧
      ((-1 : ℚ) ≤ 0 ∧ (0 : ℚ) ≤ 1) ∧
      quantizePixel 0 = 2 * ((⌊255 * ((0 : ℚ) + 1) / 2⌋ : ℤ) : ℚ) / 255 - 1 ∧
      0 ≤ ⌊255 * ((0 : ℚ) + 1) / 2⌋ ∧ ⌊255 * ((0 : ℚ) + 1) / 2⌋ ≤ 255 :=
  ⟨(validation_quantization [0]).1, ⟨by norm_num, by norm_num⟩,
    (validation_quantization [0]).2.2 0 (by norm_num) (by norm_num)⟩

/-! ## Majority-vote lemmas (for C2, C3) -/

theorem mcFold_spec {α : Type} (t : List (α × Nat)) :
    ∀ best : α × Nat,
      (t.foldl mcStep best = best ∧ ∀ q ∈ t, q.2 ≤ best.2) ∨
      (∃ l1 p l2, t = l1 ++ p :: l2 ∧ t.foldl mcStep best = p ∧
        best.2 < p.2 ∧ (∀ q ∈ l1, q.2 < p.2) ∧ (∀ q ∈ l2, q.2 ≤ p.2)) := by
  induction t with
  | nil =>
      intro best
      left
      simp
  | cons x t ih =>
      intro best
      simp only [List.foldl_cons]
      by_cases hx : best.2 < x.2
      · rw [show mcStep best x = x from if_pos hx]
        rcases ih x with ⟨heq, hle⟩ | ⟨l1, p, l2, ht, heq, hlt, h1, h2⟩
        · right
          exact ⟨[], x, t, by simp, heq, hx, by simp, hle⟩
        · right
          refine ⟨x :: l1, p, l2, by rw [ht]; rfl, heq, lt_trans hx hlt,
            ?_, h2⟩
          intro q hq
          rcases List.mem_cons.1 hq with rfl | hq
          · exact hlt
          · exact h1 q hq
      · rw [show mcStep best x = best from if_neg hx]
        rcases ih best with ⟨heq, hle⟩ | ⟨l1, p, l2, ht, heq, hlt, h1, h2⟩
        · left
          refine ⟨heq, ?_⟩
          intro q hq
          rcases List.mem_cons.1 hq with rfl | hq
          · omega
          · exact hle q hq
        · right
          refine ⟨x :: l1, p, l2, by rw [ht]; rfl, heq, hlt, ?_, h2⟩
          intro q hq
          rcases List.mem_cons.1 hq with rfl | hq
          · omega
          · exact h1 q hq

theorem mostCommon_isFirstMax {α : Type} (l : List (α × Nat)) (p : α × Nat)
    (h : mostCommon l = some p) : IsFirstMax l p := by
  match l, h with
  | h0 :: t, h =>
      have hp : t.foldl mcStep h0 = p := by simpa [mostCommon] using h
      rcases mcFold_spec t h0 with ⟨heq, hle⟩ | ⟨l1, q, l2, ht, heq, hlt, h1, h2⟩
      · rw [heq] at hp
        subst hp
        exact ⟨[], t, rfl, by simp, hle⟩
      · rw [heq] at hp
        subst hp
        refine ⟨h0 :: l1, l2, by rw [ht]; rfl, ?_, h2⟩
        intro q hq
        rcases List.mem_cons.1 hq with rfl | hq
        · exact hlt
        · exact h1 q hq

theorem mostCommon_eq_none_iff {α : Type} (l : List (α × Nat)) :
    mostCommon l = none ↔ l = [] := by
  cases l <;> simp [mostCommon]

theorem tallyStep_length {α : Type} [DecidableEq α]
    (acc : List (α × Nat)) (t : α) :
    acc.length ≤ (tallyStep acc t).length := by
  unfold tallyStep
  split
  · simp
  · simp

theorem tally_foldl_length {α : Type} [DecidableEq α] (items : List α) :
    ∀ acc : List (α × Nat), acc.length ≤ (items.foldl tallyStep acc).length := by
  induction items with
  | nil =>
      intro acc
      simp
  | cons x items ih =>
      intro acc
      calc acc.length ≤ (tallyStep acc x).length := tallyStep_length acc x
        _ ≤ _ := by simpa [List.foldl_cons] using ih (tallyStep acc x)

theorem tally_eq_nil_iff {α : Type} [DecidableEq α] (items : List α) :
    tally items = [] ↔ items = [] := by
  cases items with
  | nil => simp [tally]
  | cons x rest =>
      simp only [tally, List.foldl_cons]
      constructor
      · intro h
        have h1 := tally_foldl_length rest (tallyStep [] x)
        rw [h] at h1
        simp [tallyStep] at h1
      · intro h
        exact absurd h (by simp)

theorem decodeBits_eq_none_iff (bits : List Bool) :
    decodeBits bits = none ↔ decodeCandidates bits = [] := by
  unfold decodeBits
  rw [Option.map_eq_none', mostCommon_eq_none_iff, tally_eq_nil_iff]

/-! ## Claim theorems C2, C3, C9 -/

/-- Claim C2: a successful `decode` of a recovered bit stream returns the
first-encountered candidate of maximal frequency among the
terminator-delimited, UTF-8-decodable fragments; in particular, on a bit
stream whose fragments decode to "A", "A", "B" it returns "A"
(code point 65). -/
theorem decode_majority_vote :
    (∀ (bits : List Bool) (t : Text), decodeBits bits = some t →
      ∃ n, IsFirstMax (tally (decodeCandidates bits)) (t, n)) ∧
    decodeBits exampleAAB = some [65] := by
  constructor
  · intro bits t h
    unfold decodeBits at h
    rcases Option.map_eq_some'.1 h with ⟨p, hp, rfl⟩
    exact ⟨p.2, mostCommon_isFirstMax _ p hp⟩
  · decide

/-- Witness for C2: the "A","A","B" bit stream, on which `decode` returns
"A" as the first-encountered candidate of maximal count. -/
theorem decode_majority_vote_witness :
    ∃ n, IsFirstMax (tally (decodeCandidates exampleAAB)) ([65], n) :=
  decode_majority_vote.1 exampleAAB [65] (by decide)

/-- Claim C3: `decode` fails with the input error exactly on a missing
path; on an existing image it normalizes the pixels to `[0, 1]` (every byte
`v ≤ 255` maps to `v/255 ∈ [0, 1]`), thresholds the recovered logits at 0,
and fails with the decode error exactly when no terminator-delimited
fragment decodes to (non-empty) valid text — undecodable fragments are
skipped rather than causing failure. -/
theorem steganoDecode_errors (recover : List ℚ → List ℚ)
    (image? : Option (List Nat)) :
    (image? = none → steganoDecode recover image? = .error .inputError) ∧
    (∀ img, image? = some img →
      ((steganoDecode recover image? = .error .decodeError) ↔
        decodeCandidates (recoveredBits recover img) = []) ∧
      (∀ v ∈ img, v ≤ 255 → 0 ≤ (v : ℚ) / 255 ∧ (v : ℚ) / 255 ≤ 1)) := by
  constructor
  · intro h
    subst h
    rfl
  · intro img h
    subst h
    constructor
    · rw [← decodeBits_eq_none_iff]
      unfold steganoDecode
      cases h : decodeBits (recoveredBits recover img) <;> simp [h]
    · intro v _ hv
      constructor
      · positivity
      · rw [div_le_one (by norm_num)]
        exact_mod_cast hv

/-- Witness for C3: a missing path produces the input error. -/
theorem steganoDecode_errors_witness :
    steganoDecode (fun _ => []) none = .error .inputError :=
  (steganoDecode_errors (fun _ => []) none).1 rfl

theorem runEpochs_file_eq_history (metricsOf : Nat → String → List ℚ)
    (n : Nat) (st : TrainLog) (hn : 0 < n) :
    (runEpochs true metricsOf n st).metricsFile =
      some (runEpochs true metricsOf n st).history := by
  match n, hn with
  | n + 1, _ => simp [runEpochs, epochFinalize]

theorem runEpochs_history_length (metricsOf : Nat → String → List ℚ)
    (n : Nat) (st : TrainLog) :
    (runEpochs true metricsOf n st).history.length = st.history.length + n := by
  induction n with
  | zero => simp [runEpochs]
  | succ n ih =>
      simp only [runEpochs, epochFinalize, if_true]
      simp [ih]
      omega

theorem epochRecord_keys (metrics : String → List ℚ) (epoch : Nat) :
    (epochRecord metrics epoch).map Prod.fst = METRIC_FIELDS ++ ["epoch"] := by
  simp only [epochRecord, List.map_append, List.map_map, List.map_cons,
    List.map_nil]
  rw [show (Prod.fst ∘ fun k => (k, listMean (metrics k))) = id from rfl,
    List.map_id]

theorem runEpochs_record_keys (metricsOf : Nat → String → List ℚ) (n : Nat)
    (st : TrainLog)
    (h0 : ∀ r ∈ st.history, r.map Prod.fst = METRIC_FIELDS ++ ["epoch"]) :
    ∀ r ∈ (runEpochs true metricsOf n st).history,
      r.map Prod.fst = METRIC_FIELDS ++ ["epoch"] := by
  induction n with
  | zero => simpa [runEpochs] using h0
  | succ n ih =>
      intro r hr
      simp only [runEpochs, epochFinalize, if_true] at hr
      rcases List.mem_append.1 hr with hr | hr
      · exact ih r hr
      · rw [List.mem_singleton.1 hr]
        exact epochRecord_keys _ _

/-- Claim C9: with logging enabled, after any positive number of epochs the
metrics log file holds exactly the serialized in-memory history — it is
rewritten in full after each epoch, with the current epoch's record already
appended — the history holds one record per completed epoch, and every
record consists of exactly the 20 named metric means plus the epoch index
(21 keys, in `METRIC_FIELDS` order followed by `"epoch"`). -/
theorem metrics_log_rewrite (metricsOf : Nat → String → List ℚ) (n : Nat)
    (hn : 1 ≤ n) :
    (runEpochs true metricsOf n ⟨[], none⟩).metricsFile =
      some (runEpochs true metricsOf n ⟨[], none⟩).history ∧
    (runEpochs true metricsOf n ⟨[], none⟩).history.length = n ∧
    ∀ r ∈ (runEpochs true metricsOf n ⟨[], none⟩).history,
      r.map Prod.fst = METRIC_FIELDS ++ ["epoch"] ∧ r.length = 21 := by
  refine ⟨runEpochs_file_eq_history metricsOf n _ hn, ?_, ?_⟩
  · rw [runEpochs_history_length]
    simp
  · intro r hr
    have hk := runEpochs_record_keys metricsOf n ⟨[], none⟩ (by simp) r hr
    refine ⟨hk, ?_⟩
    have := congrArg List.length hk
    simpa using this

/-- Witness for C9: a single epoch with empty metric lists. -/
theorem metrics_log_rewrite_witness :
    (runEpochs true (fun _ _ => []) 1 ⟨[], none⟩).metricsFile =
      some (runEpochs true (fun _ _ => []) 1 ⟨[], none⟩).history ∧
    (runEpochs true (fun _ _ => []) 1 ⟨[], none⟩).history.length = 1 ∧
    ∀ r ∈ (runEpochs true (fun _ _ => []) 1 ⟨[], none⟩).history,
      r.map Prod.fst = METRIC_FIELDS ++ ["epoch"] ∧ r.length = 21 :=
  metrics_log_rewrite (fun _ _ => []) 1 (by decide)

end SteganoGAN
